import Mathlib

/-!
Verification of the system-eye dashboard controller (cmd/dashboard.go):
the CSV codec (`exportHistoryToCSV` / `readHistoryFromCSV`), the bounded
chart windows (`appendValue`, `ensureMinData`), the history replay filter
of `runHistoryDashboard`, and the live event loop of `runLiveDashboard`.

Modelling conventions:
- Go `float64` percentages are modelled as rationals (`ℚ`).
- Go `time.Time` instants are modelled as seconds since the Unix epoch
  plus a sub-second nanosecond component (`GoTime`).
- CSV cells are modelled by their parse behaviour (`Cell`): an RFC 3339
  timestamp string, a decimal numeral string, or any other text.
- The file system touched by the export path is modelled explicitly
  (`ExportFS`) with a failure oracle choosing which operation fails.
-/

deriving instance DecidableEq for Except

/-- A Go `time.Time` instant: seconds since the Unix epoch plus a
sub-second nanosecond component. -/
structure GoTime where
  sec : Int
  nsec : Nat
  deriving DecidableEq

/-- Go's zero `time.Time` (January 1, year 1, 00:00:00 UTC), expressed in
Unix seconds. -/
def GoTime.zero : GoTime := ⟨-62135596800, 0⟩

/-- Go `time.Time.IsZero`: whether the instant is the zero time. -/
def GoTime.isZero (t : GoTime) : Bool := decide (t = GoTime.zero)

/-- Go `t.Before(u)`: strict instant order (lexicographic on seconds then
nanoseconds). -/
def GoTime.before (t u : GoTime) : Bool :=
  decide (t.sec < u.sec ∨ (t.sec = u.sec ∧ t.nsec < u.nsec))

/-- Go `t.After(u)`: `u.before t`. -/
def GoTime.after (t u : GoTime) : Bool := u.before t

/-- Non-strict instant order, used to state inclusive-bound properties. -/
def GoTime.le (t u : GoTime) : Bool :=
  decide (t.sec < u.sec ∨ (t.sec = u.sec ∧ t.nsec ≤ u.nsec))

/-- Round a rational to the nearest integer, ties to even — the rounding
strconv uses when `fmt.Sprintf` cuts a value to a fixed number of decimal
digits. -/
def roundHalfEven (q : ℚ) : Int :=
  if q - ⌊q⌋ < 1/2 then ⌊q⌋
  else if 1/2 < q - ⌊q⌋ then ⌊q⌋ + 1
  else if ⌊q⌋ % 2 = 0 then ⌊q⌋ else ⌊q⌋ + 1

/-- The value denoted by the `fmt.Sprintf with two decimal places` rendering of `q`:
`q` rounded to a multiple of 1/100. -/
def round2 (q : ℚ) : ℚ := (roundHalfEven (100 * q) : ℚ) / 100

/-- A CSV cell, modelling a Go string by how the dashboard parses it:
`timeCell t` stands for an RFC 3339 string denoting the instant `t`,
`numCell q` for a decimal numeral denoting the rational `q`, and
`text s` for any other string (parsing it as a time or as a float
fails). The three classes of strings are disjoint: no RFC 3339 string
is a decimal numeral and vice versa. -/
inductive Cell where
  | timeCell (t : GoTime)
  | numCell (q : ℚ)
  | text (s : String)
  deriving DecidableEq

/-- Go `time.Parse(time.RFC3339, s)` on the string a cell stands for. -/
def parseRFC3339 : Cell → Option GoTime
  | .timeCell t => some t
  | _ => none

/-- Go `strconv.ParseFloat(s, 64)` on the string a cell stands for. -/
def parseFloatCell : Cell → Option ℚ
  | .numCell q => some q
  | _ => none

/-- Go `t.Format(time.RFC3339)`: the layout has no fractional second, so
formatting truncates the instant to second granularity. The model covers
instants whose RFC 3339 rendering parses back (four-digit years), the
range the system clock produces. -/
def formatRFC3339 (t : GoTime) : Cell := .timeCell ⟨t.sec, 0⟩

/-- Go `fmt.Sprintf` with verb `%.2f`: a decimal numeral denoting the
value rounded to two decimal places. -/
def formatFixed2 (q : ℚ) : Cell := .numCell (round2 q)

/-- The `Metric` struct of cmd/dashboard.go: a timestamped sample of the
three percentages. -/
structure Metric where
  Timestamp : GoTime
  CPUUsage : ℚ
  MemUsage : ℚ
  DiskUsage : ℚ
  deriving DecidableEq

/-- The header record written by `exportHistoryToCSV`. -/
def csvHeader : List Cell :=
  [.text "timestamp", .text "cpu_usage", .text "mem_usage", .text "disk_usage"]

/-- The data record `exportHistoryToCSV` writes for one sample. -/
def metricToRecord (m : Metric) : List Cell :=
  [formatRFC3339 m.Timestamp, formatFixed2 m.CPUUsage,
   formatFixed2 m.MemUsage, formatFixed2 m.DiskUsage]

/-- The full sequence of records `exportHistoryToCSV` writes: header then
one record per sample. -/
def encodeCSV (history : List Metric) : List (List Cell) :=
  csvHeader :: history.map metricToRecord

/-- The record-parsing body of the read loop of `readHistoryFromCSV`:
parse `record[0]` as an RFC 3339 timestamp and `record[1..3]` as floats;
any failure makes the loop `continue` (modelled as `none`). -/
def parseRecord : List Cell → Option Metric
  | t :: c :: m :: d :: _ =>
    match parseRFC3339 t with
    | none => none
    | some ts =>
      match parseFloatCell c with
      | none => none
      | some cv =>
        match parseFloatCell m with
        | none => none
        | some mv =>
          match parseFloatCell d with
          | none => none
          | some dv => some ⟨ts, cv, mv, dv⟩
  | _ => none

/-- The data-row loop of `readHistoryFromCSV`. A CSV file is modelled as
its list of records (blank lines produce no record). `encoding/csv`'s
reader, with the default `FieldsPerRecord`, expects every record to have
as many fields as the first one and returns an error otherwise, which
the Go code propagates (`return nil, err`); a record with the expected
field count but fewer than 4 fields is skipped by the explicit
`len(record) < 4` check, and a record whose timestamp or percentages
fail to parse is skipped by the `continue` branches. -/
def readRows (expected : Nat) : List (List Cell) → Except String (List Metric)
  | [] => .ok []
  | r :: rs =>
    if r.length ≠ expected then .error "record has wrong number of fields"
    else if r.length < 4 then readRows expected rs
    else
      match parseRecord r with
      | none => readRows expected rs
      | some m => (readRows expected rs).map (fun h => m :: h)

/-- Model of `readHistoryFromCSV`: the first `reader.Read()` (the header)
failing — as on a zero-byte file, where it yields `io.EOF` — is returned
as an error; otherwise the header record fixes the expected field count
and is discarded, and the data rows are read by `readRows`. -/
def readHistoryFromCSV : List (List Cell) → Except String (List Metric)
  | [] => .error "EOF"
  | header :: rows => readRows header.length rows

/-- The fallible operations performed by `exportHistoryToCSV`, in program
order: `os.CreateTemp` in the destination's directory, the header
`writer.Write`, one `writer.Write` per sample, the `writer.Flush` /
`writer.Error` check, and the final `os.Rename`. -/
inductive ExportOp where
  | createTemp
  | writeHeader
  | writeRow (i : Nat)
  | flush
  | rename
  deriving DecidableEq

/-- The slice of the file system `exportHistoryToCSV` touches: the
contents of the destination path and of the temporary file it creates
next to it (`none` = no such file). -/
structure ExportFS where
  dest : Option (List (List Cell))
  tmp : Option (List (List Cell))
  deriving DecidableEq

/-- The row-writing loop of `exportHistoryToCSV`: writes each sample's
record to the temporary file, stopping with failure at the first write
the oracle fails. Returns whether all writes succeeded together with the
records written so far. -/
def writeRecords (fail : ExportOp → Bool) : Nat → List Metric → List (List Cell) →
    Bool × List (List Cell)
  | _, [], acc => (true, acc)
  | i, m :: rest, acc =>
    if fail (.writeRow i) then (false, acc)
    else writeRecords fail (i + 1) rest (acc ++ [metricToRecord m])

/-- Model of `exportHistoryToCSV` with an explicit failure oracle saying
which operation (if any) fails. The Go function only ever writes to the
temporary file; the destination path is touched by nothing but the final
`os.Rename`, which replaces it wholesale with the fully written
temporary file. Every error path returns before the rename, leaving the
destination untouched. -/
def exportHistoryToCSV (fail : ExportOp → Bool) (history : List Metric)
    (dest0 : Option (List (List Cell))) : Except String Unit × ExportFS :=
  if fail .createTemp then (.error "CreateTemp failed", ⟨dest0, none⟩)
  else if fail .writeHeader then (.error "write failed", ⟨dest0, some []⟩)
  else
    let w := writeRecords fail 0 history [csvHeader]
    if w.1 = false then (.error "write failed", ⟨dest0, some w.2⟩)
    else if fail .flush then (.error "flush failed", ⟨dest0, some w.2⟩)
    else if fail .rename then (.error "rename failed", ⟨dest0, some w.2⟩)
    else (.ok (), ⟨some w.2, none⟩)

/-- The `appendValue` helper of cmd/dashboard.go: drop the oldest element
when the window is at capacity, then append the new value. -/
def appendValue (data : List ℚ) (value : ℚ) (maxLen : Nat) : List ℚ :=
  (if maxLen ≤ data.length then data.drop 1 else data) ++ [value]

/-- The `ensureMinData` helper of cmd/dashboard.go: pad a series with
fewer than 2 points so the rendering sink never sees a degenerate
series. -/
def ensureMinData (data : List ℚ) : List ℚ :=
  if data.length < 2 then
    if data.length = 0 then [0, 0]
    else [data.headI, data.headI]
  else data

/-- The messages `runLiveDashboard` appends to its rolling log, by
constructor rather than by formatted string (`addLog` additionally
prepends a wall-clock prefix, which no claim depends on). -/
inductive LogMsg where
  | errCPU (e : String)
  | errMem (e : String)
  | errDisk (e : String)
  | highCPU (v : ℚ)
  | pausedMsg
  | resumedMsg
  | zoomIn (iv : Int)
  | zoomOut (iv : Int)
  | exportFail (e : String)
  | exportDone
  | shutdownMsg
  | quitMsg
  deriving DecidableEq

/-- The `addLog` closure of `runLiveDashboard`: append the message and
keep only the last 10. -/
def addLog (logs : List LogMsg) (msg : LogMsg) : List LogMsg :=
  let l := logs ++ [msg]
  if 10 < l.length then l.drop (l.length - 10) else l

/-- The mutable collection state of `runLiveDashboard`: the unbounded
history log, the three 30-point chart windows, and the rolling message
log. -/
structure DashState where
  history : List Metric
  cpuData : List ℚ
  memData : List ℚ
  diskData : List ℚ
  logMessages : List LogMsg
  deriving DecidableEq

/-- The initial state of `runLiveDashboard`: all slices nil. -/
def initState : DashState :=
  { history := [], cpuData := [], memData := [], diskData := [],
    logMessages := [] }

/-- One `ticker.C` tick of `runLiveDashboard` after the paused check,
fed the joined results of the three concurrent metric calls. Errors are
checked in source order (CPU, then memory, then disk): the first failure
logs one message and skips the rest of the tick; on full success the
sample is appended to the history log, each window is advanced by
`appendValue` with capacity 30, and a high-CPU message is logged exactly
when the sample strictly exceeds the threshold. -/
def tickStep (st : DashState) (now : GoTime) (cpuRes memRes diskRes : Except String ℚ)
    (thr : ℚ) : DashState :=
  match cpuRes with
  | .error e => { st with logMessages := addLog st.logMessages (.errCPU e) }
  | .ok cpuUsage =>
    match memRes with
    | .error e => { st with logMessages := addLog st.logMessages (.errMem e) }
    | .ok memUsage =>
      match diskRes with
      | .error e => { st with logMessages := addLog st.logMessages (.errDisk e) }
      | .ok diskUsage =>
        { history := st.history ++ [⟨now, cpuUsage, memUsage, diskUsage⟩]
          cpuData := appendValue st.cpuData cpuUsage 30
          memData := appendValue st.memData memUsage 30
          diskData := appendValue st.diskData diskUsage 30
          logMessages :=
            if cpuUsage > thr then addLog st.logMessages (.highCPU cpuUsage)
            else st.logMessages }

/-- The message the failing tick logs: the first failing source in the
order the Go code checks them. -/
def firstTickError : Except String ℚ → Except String ℚ → Except String ℚ → Option LogMsg
  | .error e, _, _ => some (.errCPU e)
  | .ok _, .error e, _ => some (.errMem e)
  | .ok _, .ok _, .error e => some (.errDisk e)
  | .ok _, .ok _, .ok _ => none

/-- A log message names a source that actually failed this tick. -/
def msgNamesFailingSource (cpuRes memRes diskRes : Except String ℚ) : LogMsg → Prop
  | .errCPU e => cpuRes = .error e
  | .errMem e => memRes = .error e
  | .errDisk e => diskRes = .error e
  | _ => False

/-- The input of one successful tick: arrival time and the three sampled
percentages. -/
structure TickIn where
  now : GoTime
  cpu : ℚ
  mem : ℚ
  disk : ℚ
  deriving DecidableEq

/-- A run of successful ticks through `tickStep`. -/
def runTicks (thr : ℚ) (st : DashState) (ts : List TickIn) : DashState :=
  ts.foldl (fun s t => tickStep s t.now (.ok t.cpu) (.ok t.mem) (.ok t.disk) thr) st

/-- The key events `runLiveDashboard` distinguishes (termui event IDs). -/
inductive Key where
  | q
  | ctrlC
  | p
  | z
  | x
  | e
  | resize
  | other (s : String)
  deriving DecidableEq

/-- One arm of the `select` in the loop of `runLiveDashboard`: context
cancellation, a UI event, or a timer tick carrying the joined results of
the three metric calls. -/
inductive Event where
  | ctxDone
  | uiEvent (k : Key)
  | timerFire (now : GoTime) (cpuRes memRes diskRes : Except String ℚ)

/-- The controller state of `runLiveDashboard`: the paused flag, the live
refresh interval (nanoseconds), the CPU threshold, the configured export
path, and the collection state. -/
structure Ctrl where
  paused : Bool
  refreshInterval : Int
  cpuThreshold : ℚ
  csvPath : Option String
  st : DashState
  deriving DecidableEq

/-- The outcome of one loop iteration: the next controller state, whether
the charts were rendered, and whether the loop broke. -/
structure StepOut where
  ctrl : Ctrl
  rendered : Bool
  exited : Bool
  deriving DecidableEq

/-- One iteration of the `select` loop of `runLiveDashboard`.
`exportRes` is the result the `e`-branch's call to the CSV export would
return (its file-system effect is modelled by `exportHistoryToCSV`
above); only its logged outcome appears here. Rendering happens only at
the end of a fully successful tick. -/
def loopStep (c : Ctrl) (exportRes : Except String Unit) : Event → StepOut
  | .ctxDone =>
    ⟨{ c with st := { c.st with logMessages := addLog c.st.logMessages .shutdownMsg } },
     false, true⟩
  | .uiEvent k =>
    match k with
    | .q =>
      ⟨{ c with st := { c.st with logMessages := addLog c.st.logMessages .quitMsg } },
       false, true⟩
    | .ctrlC =>
      ⟨{ c with st := { c.st with logMessages := addLog c.st.logMessages .quitMsg } },
       false, true⟩
    | .p =>
      let msg := if !c.paused then LogMsg.pausedMsg else LogMsg.resumedMsg
      ⟨{ c with
         paused := !c.paused
         st := { c.st with logMessages := addLog c.st.logMessages msg } },
       false, false⟩
    | .z =>
      let iv := c.refreshInterval / 2
      ⟨{ c with
         refreshInterval := iv
         st := { c.st with logMessages := addLog c.st.logMessages (.zoomIn iv) } },
       false, false⟩
    | .x =>
      let iv := c.refreshInterval * 2
      ⟨{ c with
         refreshInterval := iv
         st := { c.st with logMessages := addLog c.st.logMessages (.zoomOut iv) } },
       false, false⟩
    | .e =>
      match c.csvPath with
      | none => ⟨c, false, false⟩
      | some _ =>
        match exportRes with
        | .error err =>
          ⟨{ c with st := { c.st with logMessages := addLog c.st.logMessages (.exportFail err) } },
           false, false⟩
        | .ok _ =>
          ⟨{ c with st := { c.st with logMessages := addLog c.st.logMessages .exportDone } },
           false, false⟩
    | .resize => ⟨c, false, false⟩
    | .other _ => ⟨c, false, false⟩
  | .timerFire now cpuRes memRes diskRes =>
    if c.paused then ⟨c, false, false⟩
    else
      ⟨{ c with st := tickStep c.st now cpuRes memRes diskRes c.cpuThreshold },
       cpuRes.isOk && memRes.isOk && diskRes.isOk, false⟩

/-- The range filter of `runHistoryDashboard`. The `from`/`to` CLI flags
are modelled after parsing: `none` when the flag was empty (leaving the
corresponding `time.Time` variable at its zero value), `some t`
otherwise. A sample is skipped when a bound is non-zero and the
timestamp falls strictly outside it; the kept samples are appended in
file order. -/
def historyFilter (fromFlag toFlag : Option GoTime) (history : List Metric) : List Metric :=
  history.filter (fun m =>
    !((!(fromFlag.getD GoTime.zero).isZero && m.Timestamp.before (fromFlag.getD GoTime.zero)) ||
      (!(toFlag.getD GoTime.zero).isZero && m.Timestamp.after (toFlag.getD GoTime.zero))))

/-- Modelled from the spec's words for comparison with `historyFilter`:
keep exactly the samples with `from ≤ t ≤ to`, both bounds inclusive, an
absent bound unbounded on its side — amended so that a bound equal to
Go's zero time is also treated as absent. -/
def keepSpec (fromFlag toFlag : Option GoTime) (m : Metric) : Bool :=
  (match fromFlag with
   | none => true
   | some s => s.isZero || s.le m.Timestamp) &&
  (match toFlag with
   | none => true
   | some e => e.isZero || m.Timestamp.le e)

/-- A concrete well-formed sample used as test data. -/
def sampleA : Metric := ⟨⟨100, 0⟩, 1/2, 3/2, 5/2⟩

/-- A concrete sample whose timestamp lies one second before Go's zero
time (its RFC 3339 rendering is 0000-12-31T23:59:59Z). -/
def oldSample : Metric := ⟨⟨GoTime.zero.sec - 1, 0⟩, 1, 1, 1⟩

/-! Helper lemmas. -/

/-- Folding `appendValue` with capacity 30 from the empty window leaves
exactly the last `min (length, 30)` values: the suffix after dropping
`length - 30`. -/
theorem windowFold_eq (vs : List ℚ) :
    vs.foldl (fun d v => appendValue d v 30) [] = vs.drop (vs.length - 30) := by
  induction vs using List.reverseRecOn with
  | nil => rfl
  | append_singleton xs x ih =>
    rw [List.foldl_append, List.foldl_cons, List.foldl_nil, ih]
    by_cases h : xs.length < 30
    · have h0 : xs.length - 30 = 0 := by omega
      have h1 : (xs ++ [x]).length - 30 = 0 := by simp; omega
      rw [h0, h1, List.drop_zero, List.drop_zero, appendValue]
      have h2 : ¬ (30 ≤ xs.length) := by omega
      simp [h2]
    · have hlen : (xs.drop (xs.length - 30)).length = 30 := by
        rw [List.length_drop]; omega
      rw [appendValue, if_pos (by omega : 30 ≤ (xs.drop (xs.length - 30)).length)]
      rw [List.drop_drop]
      have h2 : (xs ++ [x]).length - 30 = 1 + (xs.length - 30) := by simp; omega
      rw [h2, List.drop_append_of_le_length (by omega), Nat.add_comm]

/-- Running ticks threads `appendValue` over the CPU window. -/
theorem runTicks_cpuData (thr : ℚ) (st : DashState) (ts : List TickIn) :
    (runTicks thr st ts).cpuData =
      (ts.map TickIn.cpu).foldl (fun d v => appendValue d v 30) st.cpuData := by
  induction ts generalizing st with
  | nil => rfl
  | cons t rest ih =>
    have h : runTicks thr st (t :: rest)
        = runTicks thr (tickStep st t.now (.ok t.cpu) (.ok t.mem) (.ok t.disk) thr) rest := rfl
    rw [h, ih]
    rfl

/-- Running ticks threads `appendValue` over the memory window. -/
theorem runTicks_memData (thr : ℚ) (st : DashState) (ts : List TickIn) :
    (runTicks thr st ts).memData =
      (ts.map TickIn.mem).foldl (fun d v => appendValue d v 30) st.memData := by
  induction ts generalizing st with
  | nil => rfl
  | cons t rest ih =>
    have h : runTicks thr st (t :: rest)
        = runTicks thr (tickStep st t.now (.ok t.cpu) (.ok t.mem) (.ok t.disk) thr) rest := rfl
    rw [h, ih]
    rfl

/-- Running ticks threads `appendValue` over the disk window. -/
theorem runTicks_diskData (thr : ℚ) (st : DashState) (ts : List TickIn) :
    (runTicks thr st ts).diskData =
      (ts.map TickIn.disk).foldl (fun d v => appendValue d v 30) st.diskData := by
  induction ts generalizing st with
  | nil => rfl
  | cons t rest ih =>
    have h : runTicks thr st (t :: rest)
        = runTicks thr (tickStep st t.now (.ok t.cpu) (.ok t.mem) (.ok t.disk) thr) rest := rfl
    rw [h, ih]
    rfl

/-- Go `Before` and the non-strict order are complementary: a time is not
before `b` exactly when `b ≤ it`. -/
theorem not_before_eq_le (a b : GoTime) : (!(a.before b)) = b.le a := by
  rw [GoTime.before, GoTime.le, ← decide_not, decide_eq_decide]
  omega

/-- When every data row has the expected field count, `readRows` never
aborts: it returns exactly the rows that parse, in file order. -/
theorem readRows_all_match (expected : Nat) (rows : List (List Cell))
    (h : ∀ r ∈ rows, r.length = expected) :
    readRows expected rows =
      .ok (rows.filterMap (fun r => if r.length < 4 then none else parseRecord r)) := by
  induction rows with
  | nil => rfl
  | cons r rs ih =>
    have hr : r.length = expected := h r (by simp)
    have hrest : ∀ x ∈ rs, x.length = expected := fun x hx => h x (by simp [hx])
    simp only [readRows, List.filterMap_cons]
    rw [if_neg (by omega)]
    by_cases h4 : r.length < 4
    · rw [if_pos h4, ih hrest]
      simp [h4]
    · rw [if_neg h4]
      cases hp : parseRecord r with
      | none => rw [ih hrest]; simp [h4, hp]
      | some m => rw [ih hrest]; simp [h4, hp, Except.map]

/-- A data row whose field count differs from the expected one makes
`readRows` return an error for the whole read, no matter how many
well-formed rows preceded it. -/
theorem readRows_abort (expected : Nat) (bad : List Cell) (rows rows2 : List (List Cell))
    (h : ∀ r ∈ rows, r.length = expected) (hbad : bad.length ≠ expected) :
    readRows expected (rows ++ bad :: rows2) = .error "record has wrong number of fields" := by
  induction rows with
  | nil => simp [readRows, hbad]
  | cons r rs ih =>
    have hr : r.length = expected := h r (by simp)
    have hrest : ∀ x ∈ rs, x.length = expected := fun x hx => h x (by simp [hx])
    rw [List.cons_append]
    simp only [readRows]
    rw [if_neg (by omega)]
    by_cases h4 : r.length < 4
    · rw [if_pos h4, ih hrest]
    · rw [if_neg h4]
      cases hp : parseRecord r with
      | none => rw [ih hrest]
      | some m => rw [ih hrest]; rfl

/-- Reading back the records produced by the export yields the samples
with timestamps truncated to the second and percentages rounded to two
decimal places. -/
theorem readRows_encode (history : List Metric) :
    readRows 4 (history.map metricToRecord) =
      .ok (history.map (fun m =>
        { Timestamp := ⟨m.Timestamp.sec, 0⟩, CPUUsage := round2 m.CPUUsage,
          MemUsage := round2 m.MemUsage, DiskUsage := round2 m.DiskUsage })) := by
  induction history with
  | nil => rfl
  | cons m rest ih =>
    simp only [List.map_cons, readRows, metricToRecord]
    norm_num
    simp [parseRecord, parseRFC3339, parseFloatCell, formatRFC3339, formatFixed2, ih, Except.map]

/-- When the row-writing loop reports success, the temporary file holds
the accumulated records followed by one record per sample. -/
theorem writeRecords_sound (fail : ExportOp → Bool) (ms : List Metric) :
    ∀ (i : Nat) (acc : List (List Cell)),
      (writeRecords fail i ms acc).1 = true →
      (writeRecords fail i ms acc).2 = acc ++ ms.map metricToRecord := by
  induction ms with
  | nil => intro i acc _; simp [writeRecords]
  | cons m rest ih =>
    intro i acc hok
    by_cases hf : fail (.writeRow i)
    · rw [writeRecords, if_pos hf] at hok
      exact Bool.noConfusion hok
    · rw [writeRecords, if_neg hf] at hok ⊢
      rw [ih (i+1) (acc ++ [metricToRecord m]) hok]
      simp

/-- With a never-failing oracle the row-writing loop succeeds. -/
theorem writeRecords_noFail (ms : List Metric) :
    ∀ (i : Nat) (acc : List (List Cell)),
      (writeRecords (fun _ => false) i ms acc).1 = true := by
  induction ms with
  | nil => intro i acc; rfl
  | cons m rest ih =>
    intro i acc
    rw [writeRecords, if_neg (fun hc => Bool.noConfusion hc)]
    exact ih (i + 1) (acc ++ [metricToRecord m])

/-- With a never-failing oracle the export succeeds and the destination
ends up holding exactly the encoded history. -/
theorem export_noFail (history : List Metric) (dest0 : Option (List (List Cell))) :
    exportHistoryToCSV (fun _ => false) history dest0 =
      (.ok (), ⟨some (encodeCSV history), none⟩) := by
  have hok := writeRecords_noFail history 0 [csvHeader]
  have hws := writeRecords_sound (fun _ => false) history 0 [csvHeader] hok
  simp [exportHistoryToCSV, hok, hws, encodeCSV]

/-! Claim theorems. -/

/-- C1: exporting any history log with `exportHistoryToCSV` (all
operations succeeding) leaves the destination holding the encoded
records, and reading those records back with `readHistoryFromCSV` (no
range filtering) yields the same sequence, sample for sample, with each
timestamp equal at RFC 3339 second granularity (sub-second part
dropped) and each percentage equal after rounding to two decimal
places. -/
theorem c1_export_read_roundtrip (history : List Metric) :
    (exportHistoryToCSV (fun _ => false) history none).2.dest = some (encodeCSV history) ∧
    readHistoryFromCSV (encodeCSV history) =
      .ok (history.map (fun m =>
        { Timestamp := ⟨m.Timestamp.sec, 0⟩, CPUUsage := round2 m.CPUUsage,
          MemUsage := round2 m.MemUsage, DiskUsage := round2 m.DiskUsage })) := by
  constructor
  · rw [export_noFail]
  · have h : readHistoryFromCSV (encodeCSV history) = readRows 4 (history.map metricToRecord) := rfl
    rw [h, readRows_encode]

/-- C2 counterexample: a data row with the wrong field count (3 fields
under a 4-field header) does not get skipped; `readHistoryFromCSV`
aborts with an error and the following well-formed row is lost, against
the claim that the read would return the remaining well-formed rows. -/
theorem c2_wrong_field_count_aborts_cex :
    readHistoryFromCSV
      [csvHeader, [.text "x", .text "y", .text "z"], metricToRecord sampleA]
      = .error "record has wrong number of fields" ∧
    ∀ l : List Metric,
      readHistoryFromCSV
        [csvHeader, [.text "x", .text "y", .text "z"], metricToRecord sampleA]
        ≠ .ok l := by
  refine ⟨by decide, ?_⟩
  intro l hcon
  rw [show readHistoryFromCSV
      [csvHeader, [.text "x", .text "y", .text "z"], metricToRecord sampleA]
      = .error "record has wrong number of fields" from by decide] at hcon
  exact Except.noConfusion hcon

/-- C2 (amended): rows with the expected field count whose timestamp or
percentage fails to parse are silently skipped while the remaining
well-formed rows are returned in order; but a data row whose field
count differs from the first line's aborts the whole read with an
error. -/
theorem c2_read_best_effort (header bad : List Cell) (rows rows2 : List (List Cell))
    (hrows : ∀ r ∈ rows, r.length = header.length)
    (hbad : bad.length ≠ header.length) :
    readHistoryFromCSV (header :: rows) =
      .ok (rows.filterMap (fun r => if r.length < 4 then none else parseRecord r)) ∧
    readHistoryFromCSV (header :: (rows ++ bad :: rows2)) =
      .error "record has wrong number of fields" :=
  ⟨readRows_all_match header.length rows hrows,
   readRows_abort header.length bad rows rows2 hrows hbad⟩

/-- C2 witness: under the 4-field header, a row of four unparsable cells
is skipped and the well-formed row after it is still returned; with a
1-field row present the whole read errors instead. -/
theorem c2_read_best_effort_witness :
    readHistoryFromCSV
      (csvHeader :: [[Cell.text "x", Cell.text "y", Cell.text "z", Cell.text "w"],
                     metricToRecord sampleA]) =
      .ok ([[Cell.text "x", Cell.text "y", Cell.text "z", Cell.text "w"],
            metricToRecord sampleA].filterMap
        (fun r => if r.length < 4 then none else parseRecord r)) ∧
    readHistoryFromCSV
      (csvHeader :: ([[Cell.text "x", Cell.text "y", Cell.text "z", Cell.text "w"],
                      metricToRecord sampleA] ++ [Cell.text "lonely"] :: [])) =
      .error "record has wrong number of fields" :=
  c2_read_best_effort csvHeader [Cell.text "lonely"]
    [[Cell.text "x", Cell.text "y", Cell.text "z", Cell.text "w"], metricToRecord sampleA]
    [] (by decide) (by decide)

/-- C3: the destination path is only ever replaced wholesale by the
final rename of the completely written temporary file: whenever the
export returns an error — in particular whenever any operation before
the rename fails — the destination's previous contents are unchanged,
and on success the destination holds exactly the full encoded history,
never a truncated prefix. -/
theorem c3_export_atomic (fail : ExportOp → Bool) (history : List Metric)
    (dest0 : Option (List (List Cell))) :
    (((exportHistoryToCSV fail history dest0).1.isOk = false) →
      (exportHistoryToCSV fail history dest0).2.dest = dest0) ∧
    (((exportHistoryToCSV fail history dest0).1.isOk = true) →
      (exportHistoryToCSV fail history dest0).2.dest = some (encodeCSV history)) := by
  unfold exportHistoryToCSV
  by_cases h0 : fail .createTemp
  · rw [if_pos h0]
    exact ⟨fun _ => rfl, fun hc => Bool.noConfusion hc⟩
  · rw [if_neg h0]
    by_cases h1 : fail .writeHeader
    · rw [if_pos h1]
      exact ⟨fun _ => rfl, fun hc => Bool.noConfusion hc⟩
    · rw [if_neg h1]
      by_cases hw : (writeRecords fail 0 history [csvHeader]).1 = false
      · rw [if_pos hw]
        exact ⟨fun _ => rfl, fun hc => Bool.noConfusion hc⟩
      · rw [if_neg hw]
        have hok : (writeRecords fail 0 history [csvHeader]).1 = true := by
          cases hb : (writeRecords fail 0 history [csvHeader]).1
          · exact absurd hb hw
          · rfl
        have hws := writeRecords_sound fail history 0 [csvHeader] hok
        by_cases h2 : fail .flush
        · rw [if_pos h2]
          exact ⟨fun _ => rfl, fun hc => Bool.noConfusion hc⟩
        · rw [if_neg h2]
          by_cases h3 : fail .rename
          · rw [if_pos h3]
            exact ⟨fun _ => rfl, fun hc => Bool.noConfusion hc⟩
          · rw [if_neg h3]
            refine ⟨fun hc => Bool.noConfusion hc, fun _ => ?_⟩
            show some (writeRecords fail 0 history [csvHeader]).2 = some (encodeCSV history)
            rw [hws]
            rfl

/-- C3 witness: a flush failure leaves the old destination contents in
place, and a fully successful export replaces them with the encoded
history. -/
theorem c3_export_atomic_witness :
    (exportHistoryToCSV (fun op => decide (op = ExportOp.flush)) [sampleA]
      (some [[Cell.text "old"]])).2.dest = some [[Cell.text "old"]] ∧
    (exportHistoryToCSV (fun _ => false) [sampleA]
      (some [[Cell.text "old"]])).2.dest = some (encodeCSV [sampleA]) :=
  ⟨(c3_export_atomic (fun op => decide (op = ExportOp.flush)) [sampleA]
      (some [[Cell.text "old"]])).1 (by decide),
   (c3_export_atomic (fun _ => false) [sampleA]
      (some [[Cell.text "old"]])).2 (by decide)⟩

/-- C4: after any sequence of N successfully recorded ticks starting
from the empty dashboard state, each per-metric chart window (cpuData,
memData, diskData) has length `min N 30` and holds exactly the
`min N 30` most recent sampled values in chronological arrival order —
the suffix of the sample sequence after dropping `N - 30`, so the
oldest value is the one evicted whenever the window is at capacity. -/
theorem c4_window_min_recent (thr : ℚ) (ts : List TickIn) :
    ((runTicks thr initState ts).cpuData.length = min ts.length 30 ∧
     (runTicks thr initState ts).memData.length = min ts.length 30 ∧
     (runTicks thr initState ts).diskData.length = min ts.length 30) ∧
    (runTicks thr initState ts).cpuData = (ts.map TickIn.cpu).drop (ts.length - 30) ∧
    (runTicks thr initState ts).memData = (ts.map TickIn.mem).drop (ts.length - 30) ∧
    (runTicks thr initState ts).diskData = (ts.map TickIn.disk).drop (ts.length - 30) := by
  have hc : (runTicks thr initState ts).cpuData = (ts.map TickIn.cpu).drop (ts.length - 30) := by
    rw [runTicks_cpuData, show initState.cpuData = [] from rfl, windowFold_eq, List.length_map]
  have hm : (runTicks thr initState ts).memData = (ts.map TickIn.mem).drop (ts.length - 30) := by
    rw [runTicks_memData, show initState.memData = [] from rfl, windowFold_eq, List.length_map]
  have hd : (runTicks thr initState ts).diskData = (ts.map TickIn.disk).drop (ts.length - 30) := by
    rw [runTicks_diskData, show initState.diskData = [] from rfl, windowFold_eq, List.length_map]
  refine ⟨⟨?_, ?_, ?_⟩, hc, hm, hd⟩
  · rw [hc, List.length_drop, List.length_map]; omega
  · rw [hm, List.length_drop, List.length_map]; omega
  · rw [hd, List.length_drop, List.length_map]; omega

/-- C5: `ensureMinData` hands the rendering sink a 2-element series when
the window holds 0 or 1 samples — `[0, 0]` for an empty window and
`[x, x]` for a single sample `x` — and passes a window of 2 or more
samples through unchanged. -/
theorem c5_ensureMinData_pads (x : ℚ) (data : List ℚ) (h : 2 ≤ data.length) :
    ensureMinData [] = [0, 0] ∧ ensureMinData [x] = [x, x] ∧
    ensureMinData data = data := by
  refine ⟨rfl, rfl, ?_⟩
  unfold ensureMinData
  rw [if_neg (by omega)]

/-- C5 witness: padding on concrete windows of length 0, 1 and 2. -/
theorem c5_ensureMinData_pads_witness :
    ensureMinData [] = [0, 0] ∧ ensureMinData [(7 : ℚ)] = [7, 7] ∧
    ensureMinData [(1 : ℚ), 2] = [1, 2] :=
  c5_ensureMinData_pads 7 [1, 2] (by decide)

/-- C6 counterexample: a `from` bound explicitly given as Go's zero time
(0001-01-01T00:00:00Z) is treated as absent by the `IsZero` check, so a
sample one second before that bound is kept by the replay filter even
though `from ≤ t` fails — against the claim that exactly the samples
with `from ≤ t` are kept. -/
theorem c6_zero_bound_cex :
    historyFilter (some GoTime.zero) none [oldSample] = [oldSample] ∧
    GoTime.le GoTime.zero oldSample.Timestamp = false := by
  constructor
  · decide
  · decide

/-- C6 (amended): history replay keeps exactly the samples with
`from ≤ t ≤ to`, both bounds inclusive, an absent bound unbounded on
its side — with the amendment that a bound equal to Go's zero time
(0001-01-01T00:00:00Z) is likewise treated as absent — and the kept
samples stay in file order (the result is a sublist of the input,
never re-sorted). -/
theorem c6_filter_inclusive (fromFlag toFlag : Option GoTime) (history : List Metric) :
    historyFilter fromFlag toFlag history = history.filter (keepSpec fromFlag toFlag) ∧
    (historyFilter fromFlag toFlag history).Sublist history := by
  constructor
  · unfold historyFilter
    apply List.filter_congr
    intro m _
    have h1 : ∀ s : GoTime,
        (!(!s.isZero && m.Timestamp.before s)) = (s.isZero || s.le m.Timestamp) := by
      intro s
      cases hz : s.isZero with
      | true => simp [hz]
      | false => simp [hz, not_before_eq_le]
    have h2 : ∀ e : GoTime,
        (!(!e.isZero && m.Timestamp.after e)) = (e.isZero || m.Timestamp.le e) := by
      intro e
      cases hz : e.isZero with
      | true => simp [hz]
      | false => simp [hz, GoTime.after, not_before_eq_le]
    cases fromFlag <;> cases toFlag <;>
      simp only [keepSpec, Option.getD, Bool.not_or, h1, h2] <;>
      simp [GoTime.isZero]
  · exact List.filter_sublist _

/-- C7: on a tick where at least one of the three metric calls fails,
the state is changed only by logging exactly one error message — one
that names a failing source (the first of CPU, memory, disk to have
failed) — while the history log and all three chart windows stay
untouched, nothing is rendered, and the loop does not exit. -/
theorem c7_failed_tick_skips (c : Ctrl) (exportRes : Except String Unit) (now : GoTime)
    (cpuRes memRes diskRes : Except String ℚ)
    (hp : c.paused = false)
    (h : cpuRes.isOk = false ∨ memRes.isOk = false ∨ diskRes.isOk = false) :
    ∃ msg, firstTickError cpuRes memRes diskRes = some msg ∧
      msgNamesFailingSource cpuRes memRes diskRes msg ∧
      loopStep c exportRes (.timerFire now cpuRes memRes diskRes) =
        ⟨{ c with st := { c.st with logMessages := addLog c.st.logMessages msg } },
         false, false⟩ := by
  have hstep : loopStep c exportRes (.timerFire now cpuRes memRes diskRes) =
      ⟨{ c with st := tickStep c.st now cpuRes memRes diskRes c.cpuThreshold },
       cpuRes.isOk && memRes.isOk && diskRes.isOk, false⟩ := by
    show (if c.paused then _ else _) = _
    rw [if_neg (by rw [hp]; exact Bool.noConfusion)]
  cases cpuRes with
  | error e =>
    refine ⟨.errCPU e, rfl, rfl, ?_⟩
    rw [hstep]
    rfl
  | ok cv =>
    cases memRes with
    | error e =>
      refine ⟨.errMem e, rfl, rfl, ?_⟩
      rw [hstep]
      rfl
    | ok mv =>
      cases diskRes with
      | error e =>
        refine ⟨.errDisk e, rfl, rfl, ?_⟩
        rw [hstep]
        rfl
      | ok dv =>
        exfalso
        rcases h with h | h | h <;> exact Bool.noConfusion h

/-- C7 witness: a concrete running controller whose memory call fails
logs one memory-error message and changes nothing else. -/
theorem c7_failed_tick_skips_witness :
    ∃ msg, firstTickError (.ok 1) (.error "mem gone") (.ok 2) = some msg ∧
      msgNamesFailingSource (.ok 1) (.error "mem gone") (.ok 2) msg ∧
      loopStep ⟨false, 2000000000, 90, none, initState⟩ (.ok ())
          (.timerFire ⟨0, 0⟩ (.ok 1) (.error "mem gone") (.ok 2)) =
        ⟨{ (⟨false, 2000000000, 90, none, initState⟩ : Ctrl) with
           st := { initState with
              logMessages := addLog initState.logMessages msg } },
         false, false⟩ :=
  c7_failed_tick_skips ⟨false, 2000000000, 90, none, initState⟩ (.ok ()) ⟨0, 0⟩
    (.ok 1) (.error "mem gone") (.ok 2) rfl (Or.inr (Or.inl rfl))

/-- C8: on a successful tick a high-CPU entry is logged exactly when the
sampled CPU usage strictly exceeds the threshold; in particular three
ticks with CPU samples 5, 15, 3 under threshold 10 log exactly one
threshold entry, for the 15 tick. -/
theorem c8_threshold_logging (st : DashState) (now : GoTime) (cv mv dv thr : ℚ) :
    (tickStep st now (.ok cv) (.ok mv) (.ok dv) thr).logMessages =
      (if cv > thr then addLog st.logMessages (.highCPU cv) else st.logMessages) ∧
    (runTicks 10 initState
      [⟨⟨0, 0⟩, 5, 0, 0⟩, ⟨⟨1, 0⟩, 15, 0, 0⟩, ⟨⟨2, 0⟩, 3, 0, 0⟩]).logMessages
      = [.highCPU 15] := by
  constructor
  · rfl
  · decide

/-- C9: while paused, a timer fire changes nothing at all — no
collection, no recording, no render, no log — and a pause-toggle key
received while paused returns the controller to running; toggling twice
from any state restores the original paused flag. -/
theorem c9_paused_ignores_timer (c c₂ : Ctrl) (exportRes : Except String Unit)
    (now : GoTime) (cpuRes memRes diskRes : Except String ℚ) (h : c.paused = true) :
    loopStep c exportRes (.timerFire now cpuRes memRes diskRes) = ⟨c, false, false⟩ ∧
    (loopStep c exportRes (.uiEvent .p)).ctrl.paused = false ∧
    (loopStep (loopStep c₂ exportRes (.uiEvent .p)).ctrl exportRes (.uiEvent .p)).ctrl.paused
      = c₂.paused := by
  refine ⟨?_, ?_, ?_⟩
  · show (if c.paused then _ else _) = _
    rw [if_pos h]
  · show (!c.paused) = false
    rw [h]
    rfl
  · show (!(!c₂.paused)) = c₂.paused
    simp

/-- C9 witness: a concrete paused controller ignores a timer fire, and
pause-toggle twice restores a concrete running controller. -/
theorem c9_paused_ignores_timer_witness :
    loopStep ⟨true, 2000000000, 90, none, initState⟩ (.ok ())
        (.timerFire ⟨0, 0⟩ (.ok 1) (.ok 2) (.ok 3)) =
      ⟨⟨true, 2000000000, 90, none, initState⟩, false, false⟩ ∧
    (loopStep ⟨true, 2000000000, 90, none, initState⟩ (.ok ())
        (.uiEvent .p)).ctrl.paused = false ∧
    (loopStep (loopStep ⟨false, 2000000000, 90, none, initState⟩ (.ok ())
        (.uiEvent .p)).ctrl (.ok ()) (.uiEvent .p)).ctrl.paused
      = (⟨false, 2000000000, 90, none, initState⟩ : Ctrl).paused :=
  c9_paused_ignores_timer ⟨true, 2000000000, 90, none, initState⟩
    ⟨false, 2000000000, 90, none, initState⟩ (.ok ()) ⟨0, 0⟩
    (.ok 1) (.ok 2) (.ok 3) rfl

/-- C10: reading a file from which no first line can be read — modelled
by the empty record list a zero-byte file produces — returns an error
rather than an empty sample sequence; once a first line is read, the
data rows are processed by the best-effort `readRows` loop. -/
theorem c10_empty_file_errors :
    readHistoryFromCSV [] = .error "EOF" ∧
    ∀ (header : List Cell) (rows : List (List Cell)),
      readHistoryFromCSV (header :: rows) = readRows header.length rows :=
  ⟨rfl, fun _ _ => rfl⟩
